import Mathlib

/-!
Verification of the Mr_Tracking client-side data-shaping logic

Shallow embedding of the array-shaping code of the Mr_Tracking web
application (pagination slicing, the sortable-table hook, the doctors
search filter, and the admin dashboard aggregation functions), together
with proofs and refutations of the claims the specification makes about
them.

Lists model JS arrays; `List.insertionSort` models `Array.prototype.sort`
(both are stable sorts, and for a fixed total preorder a stable sort is
uniquely determined); `Except` models a remote query that either returns
data or an error object.
-/

namespace MrTracking

universe u

/-! ## Definitions

Pagination (`DoctorsList.tsx` / report page `paginatedData`):

```
const startIndex = (currentPage - 1) * itemsPerPage;
const endIndex = startIndex + itemsPerPage;
return sortedData.slice(startIndex, endIndex);
```
-/

/-- JS `Array.prototype.slice(start, end)`: the elements from index
`start` (inclusive) to `end` (exclusive). -/
def slice {α : Type u} (l : List α) (s e : Nat) : List α :=
  (l.drop s).take (e - s)

/-- Function `paginatedData` from `DoctorsList.tsx` lines 226-230
(identical in the report page): slice of the sorted data for the current
page. -/
def paginatedData {α : Type u} (sortedData : List α)
    (currentPage itemsPerPage : Nat) : List α :=
  slice sortedData ((currentPage - 1) * itemsPerPage)
    ((currentPage - 1) * itemsPerPage + itemsPerPage)

/-! ### The sortable-table hook (`useSortableTable`)

The implementation file of the hook (`src/hooks/useSortableTable.ts`) is not in
the repository snapshot; only its callers are (`DoctorsList.tsx` lines
219-223 with `defaultSortColumn: "name"`, `defaultSortDirection: "asc"`;
the report page lines 513-517 with `defaultSortColumn` of `date` and
`defaultSortDirection` of `desc`).
-/

/-- Sort direction of the sortable-table hook (`asc` or `desc`). -/
inductive SortDirection : Type
  | asc : SortDirection
  | desc : SortDirection
deriving DecidableEq

/-- Toggling the direction on repeated selection of the same column. -/
def toggle : SortDirection → SortDirection
  | SortDirection.asc => SortDirection.desc
  | SortDirection.desc => SortDirection.asc

/-- Modelled from the spec: the comparison of the `useSortableTable` hook is
missing from `src/`; spec section 4.1 says the hook "returns a new array
sorted ascending or descending by that column value" and "unsupported
column types degrade to string comparison". A record is a function from
column keys to its string value in that column; `colLe col d` is the
order the comparator induces on records for column `col` and direction
`d`. -/
def colLe {K : Type u} (col : K) (d : SortDirection) (a b : K → String) : Prop :=
  match d with
  | SortDirection.asc => a col ≤ b col
  | SortDirection.desc => b col ≤ a col

instance {K : Type u} (col : K) (d : SortDirection) : DecidableRel (colLe col d) :=
  fun a b => by cases d <;> simp only [colLe] <;> exact inferInstance

instance {K : Type u} (col : K) (d : SortDirection) :
    IsTotal (K → String) (colLe col d) :=
  ⟨by intro a b; cases d <;> simp only [colLe] <;> exact le_total _ _⟩

instance {K : Type u} (col : K) (d : SortDirection) :
    IsTrans (K → String) (colLe col d) :=
  ⟨by
    intro a b c hab hbc
    cases d <;> simp only [colLe] at hab hbc ⊢
    · exact le_trans hab hbc
    · exact le_trans hbc hab⟩

/-- Modelled from the spec: the `sortedData` output of the hook — the input
array stably sorted by the selected column in the selected direction
(`Array.prototype.sort` is stable, as is `List.insertionSort`). -/
def sortedData {K : Type u} (data : List (K → String)) (col : K)
    (d : SortDirection) : List (K → String) :=
  data.insertionSort (colLe col d)

/-- Sort state held by the hook: current column and direction. -/
structure TableState (K : Type u) where
  col : K
  dir : SortDirection
deriving DecidableEq

/-- Modelled from the spec: the initial state of the hook is the configured
`defaultSortColumn` / `defaultSortDirection`. -/
def initState {K : Type u} (defaultSortColumn : K)
    (defaultSortDirection : SortDirection) : TableState K :=
  ⟨defaultSortColumn, defaultSortDirection⟩

/-- Modelled from the spec: `handleSort` toggles the direction on repeated
selection of the same column (spec section 4.1); selecting a different
column selects it with the conventional initial ascending direction. -/
def handleSort {K : Type u} [DecidableEq K] (s : TableState K) (c : K) :
    TableState K :=
  if c = s.col then ⟨s.col, toggle s.dir⟩ else ⟨c, SortDirection.asc⟩

/-! ### Doctors search filter (`DoctorsList.tsx` `filteredDoctors`)

```
doctors.filter(
  (doctor) =>
    doctor.name.toLowerCase().includes(searchTerm.toLowerCase()) ||
    doctor.specialization.toLowerCase().includes(searchTerm.toLowerCase()) ||
    doctor.hospital.toLowerCase().includes(searchTerm.toLowerCase()) ||
    doctor.address.toLowerCase().includes(searchTerm.toLowerCase()))
```
-/

/-- Doctor record, restricted to the fields the `DoctorsList.tsx` search
filter reads. -/
structure Doctor where
  name : String
  specialization : String
  hospital : String
  address : String
deriving DecidableEq

/-- Whether `sub` is an initial segment of `l`. -/
def leadsWith : List Char → List Char → Bool
  | [], _ => true
  | _ :: _, [] => false
  | a :: as, b :: bs => a == b && leadsWith as bs

/-- Whether `sub` occurs contiguously somewhere in `l`. -/
def occursIn (sub : List Char) : List Char → Bool
  | [] => sub.isEmpty
  | b :: bs => leadsWith sub (b :: bs) || occursIn sub bs

/-- JS `String.prototype.includes`: `jsIncludes s sub` is true when `sub`
occurs contiguously inside `s`. -/
def jsIncludes (s sub : String) : Bool :=
  occursIn sub.data s.data

/-- JS `String.prototype.toLowerCase`: lower-case every character (same
definition as `String.toLower`, which is `s.map Char.toLower`, but
recursing on the character list so that proofs can evaluate it). -/
def jsToLower (s : String) : String :=
  ⟨s.data.map Char.toLower⟩

/-- The predicate of `filteredDoctors` (`DoctorsList.tsx` lines 207-213):
case-insensitive substring match against name, specialization, hospital
or address. -/
def matchesSearch (searchTerm : String) (d : Doctor) : Bool :=
  jsIncludes (jsToLower d.name) (jsToLower searchTerm) ||
  jsIncludes (jsToLower d.specialization) (jsToLower searchTerm) ||
  jsIncludes (jsToLower d.hospital) (jsToLower searchTerm) ||
  jsIncludes (jsToLower d.address) (jsToLower searchTerm)

/-- `filteredDoctors` from `DoctorsList.tsx` lines 206-216. -/
def filteredDoctors (doctors : List Doctor) (searchTerm : String) : List Doctor :=
  doctors.filter (matchesSearch searchTerm)

/-! ### Dashboard: pending approvals (`fetchPendingApprovals`, part_001
lines 306-394) -/

/-- Row of the pending-visits query:
`visits` select of id, date, mr_id and the joined doctor name, filtered
to status pending.
The joined `doctors` relation may be null. -/
structure PendingVisitData where
  id : String
  date : String
  mr_id : String
  doctorName : Option String
deriving DecidableEq

/-- Row of the pending-users query (`profiles` with role `mr`, status
`pending`); `name` and `email` are nullable columns. -/
structure PendingUserRow where
  id : String
  name : Option String
  email : Option String
deriving DecidableEq

/-- Row of the unverified-doctors query (`doctors` with
`is_verified = false`). -/
structure PendingDoctorRow where
  id : String
  name : String
deriving DecidableEq

/-- Row of the pending-medical-visits query (`medical_visits` with status
`pending`). -/
structure PendingMedicalVisitRow where
  id : String
  visit_date : String
  mr_id : String
deriving DecidableEq

/-- The four shapes of the unioned pending-approval display list. -/
inductive ApprovalType : Type
  | visit : ApprovalType
  | user : ApprovalType
  | doctor : ApprovalType
  | medicalVisit : ApprovalType
deriving DecidableEq

/-- A `PendingApproval` display entry (part_001 lines 51-62, without the
lazily fetched `detailedData`). -/
structure PendingApproval where
  id : String
  name : String
  type : ApprovalType
  date : Option String
  doctorName : Option String
  email : Option String
deriving DecidableEq

/-- JS `||` on a nullable string: the fallback replaces both `null` and
the falsy empty string. -/
def jsOr (s : Option String) (fallback : String) : String :=
  match s with
  | none => fallback
  | some v => if v = "" then fallback else v

/-- Lookup in the `mrMap` built from MR profiles (`Map.get`), as an
association list. -/
def mapGet (m : List (String × String)) (k : String) : Option String :=
  (m.find? (fun p => p.1 == k)).map (fun p => p.2)

/-- The merge performed by `fetchPendingApprovals` (part_001 lines
356-386) once all four queries succeeded: format each source list and
concatenate them. `fmtDate` stands for `new Date(_).toLocaleDateString()`. -/
def fetchPendingApprovals (fmtDate : String → String)
    (pendingVisitsData : List PendingVisitData)
    (pendingUsersData : List PendingUserRow)
    (pendingDoctorsData : List PendingDoctorRow)
    (pendingMedicalVisitsData : List PendingMedicalVisitRow)
    (mrMap : List (String × String)) : List PendingApproval :=
  let formattedPendingVisits : List PendingApproval :=
    pendingVisitsData.map (fun visit =>
      { id := visit.id
        name := (mapGet mrMap visit.mr_id).getD "Unknown MR"
        type := ApprovalType.visit
        date := some (fmtDate visit.date)
        doctorName := visit.doctorName
        email := none })
  let formattedPendingUsers : List PendingApproval :=
    pendingUsersData.map (fun user =>
      { id := user.id
        name := jsOr user.name "Unknown User"
        type := ApprovalType.user
        date := none
        doctorName := none
        email := some (jsOr user.email "N/A") })
  let formattedPendingDoctors : List PendingApproval :=
    pendingDoctorsData.map (fun doctor =>
      { id := doctor.id
        name := doctor.name
        type := ApprovalType.doctor
        date := none
        doctorName := none
        email := none })
  let formattedPendingMedicalVisits : List PendingApproval :=
    pendingMedicalVisitsData.map (fun visit =>
      { id := visit.id
        name := (mapGet mrMap visit.mr_id).getD "Unknown MR"
        type := ApprovalType.medicalVisit
        date := some (fmtDate visit.visit_date)
        doctorName := some "No doctors assigned"
        email := none })
  formattedPendingVisits ++ formattedPendingUsers ++ formattedPendingDoctors
    ++ formattedPendingMedicalVisits

/-! ### Dashboard: top-MR ranking (`fetchAndProcessMRPerformance`,
part_001 lines 153-218) -/

/-- A `{ id, name }` row (MR profile, doctor or medicine). -/
structure IdName where
  id : String
  name : String
deriving DecidableEq

/-- A row of the `visits` table as read by the ranking query
(`id, mr_id`, filtered by `status` and a date range); dates are modelled
as integer timestamps. -/
structure VisitRow where
  id : String
  mr_id : String
  status : String
  date : Int
deriving DecidableEq

/-- A `visit_orders` row (`visit_id, quantity`). -/
structure OrderRow where
  visit_id : String
  quantity : Int
deriving DecidableEq

/-- An entry of the ranked MR list (part_001 lines 26-30). -/
structure MRPerformance where
  name : String
  visits : Nat
  orderValue : Int
deriving DecidableEq

/-- The server-side date-range filter of the ranking query
(`gte` on the start date / `lte` on the end date; `none` = no bound, the
all-time window). -/
def inWindow (startDate endDate : Option Int) (d : Int) : Bool :=
  (match startDate with
   | none => true
   | some s => decide (s ≤ d)) &&
  (match endDate with
   | none => true
   | some e => decide (d ≤ e))

/-- The approved visits the ranking query returns for a window: status
`approved` and date within the range. -/
def approvedVisitsIn (allVisits : List VisitRow)
    (startDate endDate : Option Int) : List VisitRow :=
  allVisits.filter (fun v => v.status == "approved" && inWindow startDate endDate v.date)

/-- The `MRPerformance` entry computed for one MR profile (part_001 lines
200-214): the approved visits of the MR in the window and the summed order
quantities of those visits. -/
def mrPerformanceOf (allVisits : List VisitRow) (allOrders : List OrderRow)
    (startDate endDate : Option Int) (mr : IdName) : MRPerformance :=
  let mrSpecificVisits :=
    (approvedVisitsIn allVisits startDate endDate).filter
      (fun visit => visit.mr_id == mr.id)
  { name := mr.name
    visits := mrSpecificVisits.length
    orderValue :=
      (mrSpecificVisits.map (fun visit =>
        (((allOrders.filter (fun o => o.visit_id == visit.id)).map
          (fun o => o.quantity)).sum))).sum }

/-- The comparator `(a, b) => b.visits - a.visits` of part_001 line 216 as
the total preorder it induces: `a` precedes `b` when the comparator is
`≤ 0`. -/
def byVisitsDesc (a b : MRPerformance) : Prop :=
  b.visits ≤ a.visits

instance : DecidableRel byVisitsDesc :=
  fun a b => by simp only [byVisitsDesc]; exact inferInstance

instance : IsTotal MRPerformance byVisitsDesc :=
  ⟨fun a b => le_total b.visits a.visits⟩

instance : IsTrans MRPerformance byVisitsDesc :=
  ⟨fun _ _ _ hab hbc => le_trans hbc hab⟩

/-- `fetchAndProcessMRPerformance` (part_001 lines 153-218): build one
performance entry per MR profile, sort by descending approved-visit count,
keep the entries with at least one visit. -/
def fetchAndProcessMRPerformance (mrsData : List IdName)
    (allVisits : List VisitRow) (allOrders : List OrderRow)
    (startDate endDate : Option Int) : List MRPerformance :=
  let mrPerformance :=
    mrsData.map (mrPerformanceOf allVisits allOrders startDate endDate)
  (mrPerformance.insertionSort byVisitsDesc).filter (fun mr => 0 < mr.visits)

/-! ### Dashboard: visit trend (`fetchCoreDashboardData`, part_001 lines
221-304) -/

/-- A calendar date as read from a fetched visit row; the trend bucketing
only ever reads the month and year. -/
structure VDate where
  year : Nat
  month : Nat
  day : Nat
deriving DecidableEq

/-- The bucket key of part_001 line 276 — `toLocaleString` with a short
month and numeric year — as the (month, year) pair the
string round-trips through (the sort comparator parses it back with
`monthMap`). -/
structure MonthKey where
  month : Nat
  year : Nat
deriving DecidableEq

/-- The key of the visit a trend bucket is created for. -/
def monthKey (v : VDate) : MonthKey :=
  ⟨v.month, v.year⟩

/-- `new Date(year, month, 1).getTime()` is strictly monotone in
`(year, month)`; the comparator of part_001 lines 286-296 therefore orders
keys by this rank. -/
def ts (k : MonthKey) : Nat :=
  k.year * 12 + k.month

/-- One entry of the `visitTrend` chart series (part_001 lines 37-41). -/
structure TrendItem where
  month : MonthKey
  visits : Nat
  orders : Nat
deriving DecidableEq

/-- One step of the bucketing loop (part_001 lines 275-280): increment the
existing bucket for the month, or create it with one visit and one order.
JS object keys are unique and keep insertion order, so the object is an
association list updated at the first matching key. -/
def addVisitMonth : List TrendItem → MonthKey → List TrendItem
  | [], k => [⟨k, 1, 1⟩]
  | e :: rest, k =>
    if e.month = k then ⟨e.month, e.visits + 1, e.orders + 1⟩ :: rest
    else e :: addVisitMonth rest k

/-- The `monthlyData` object after the bucketing loop over the fetched
visits. -/
def monthlyData (visits : List VDate) : List TrendItem :=
  visits.foldl (fun m v => addVisitMonth m (monthKey v)) []

/-- The chronological comparator of part_001 lines 286-296 as the total
preorder it induces. -/
def byMonthAsc (a b : TrendItem) : Prop :=
  ts a.month ≤ ts b.month

instance : DecidableRel byMonthAsc :=
  fun a b => by simp only [byMonthAsc]; exact inferInstance

instance : IsTotal TrendItem byMonthAsc :=
  ⟨fun a b => le_total (ts a.month) (ts b.month)⟩

instance : IsTrans TrendItem byMonthAsc :=
  ⟨fun _ _ _ hab hbc => le_trans hab hbc⟩

/-- `visitTrendArray` (part_001 lines 281-296): the buckets as an array,
sorted chronologically. -/
def visitTrendArray (visits : List VDate) : List TrendItem :=
  (monthlyData visits).insertionSort byMonthAsc

/-- Summed visit count of the buckets keyed `k` (at most one bucket, since
object keys are unique). -/
def visitsAt (k : MonthKey) (l : List TrendItem) : Nat :=
  ((l.filter (fun e => e.month == k)).map (fun e => e.visits)).sum

/-! ### Dashboard: stats/trend fetch state (`fetchCoreDashboardData`) and
loading flags -/

/-- The `stats` state object (part_001 lines 130, 251-260); the increase
fields are always written as zero. -/
structure Stats where
  totalMRs : Nat
  mrIncrease : Nat
  totalDoctors : Nat
  doctorIncrease : Nat
  totalVisits : Nat
  visitIncrease : Nat
  totalMedicals : Nat
  medicalIncrease : Nat
deriving DecidableEq

/-- State written by one run of `fetchCoreDashboardData`: `none` means the
corresponding `setState` was not called during the run. -/
structure CoreResult where
  stats : Option Stats
  visitTrend : Option (List TrendItem)
  error : Option String
  coreLoading : Bool
deriving DecidableEq

/-- Whether a query result is an error. -/
def isErr {α : Type u} : Except String α → Bool
  | Except.error _ => true
  | Except.ok _ => false

/-- `fetchCoreDashboardData` (part_001 lines 221-304) as a function of the
five query results: the four count errors are checked in order and thrown
before `setStats`; the trend query runs after `setStats`; the catch block
sets the page-level error string; the finally block clears `coreLoading`.
A count of `none` models a null `count` (`totalMRs || 0`). -/
def fetchCoreDashboardData
    (mrsQ doctorsQ visitsQ medicalsQ : Except String (Option Nat))
    (trendQ : Except String (List VDate)) : CoreResult :=
  match mrsQ with
  | Except.error m =>
    ⟨none, none,
      some ("Failed to fetch dashboard data: " ++ ("Failed to fetch MRs count: " ++ m)),
      false⟩
  | Except.ok totalMRs =>
    match doctorsQ with
    | Except.error m =>
      ⟨none, none,
        some ("Failed to fetch dashboard data: " ++ ("Failed to fetch doctors count: " ++ m)),
        false⟩
    | Except.ok totalDoctors =>
      match visitsQ with
      | Except.error m =>
        ⟨none, none,
          some ("Failed to fetch dashboard data: " ++ ("Failed to fetch visits count: " ++ m)),
          false⟩
      | Except.ok totalVisits =>
        match medicalsQ with
        | Except.error m =>
          ⟨none, none,
            some ("Failed to fetch dashboard data: " ++ ("Failed to fetch medicals count: " ++ m)),
            false⟩
        | Except.ok totalMedicals =>
          let stats : Stats :=
            ⟨totalMRs.getD 0, 0, totalDoctors.getD 0, 0,
             totalVisits.getD 0, 0, totalMedicals.getD 0, 0⟩
          match trendQ with
          | Except.error m =>
            ⟨some stats, none,
              some ("Failed to fetch dashboard data: " ++ ("Failed to fetch visit trend data: " ++ m)),
              false⟩
          | Except.ok allVisits =>
            ⟨some stats, some (visitTrendArray allVisits), none, false⟩

/-- A filter dropdown option `{ value, label }` of the report page. -/
structure FilterOption where
  value : String
  label : String
deriving DecidableEq

/-- A row of the filter-options visits query of the report page: the joined
`doctors` relation and, per order, the joined `medicines` relation (null
when the join failed or matched nothing). -/
structure FilterVisit where
  doctors : Option IdName
  visit_orders : List (Option IdName)
deriving DecidableEq

/-- State written by one run of `fetchFilterOptions`. -/
structure FilterOptionsResult where
  mrOptions : List FilterOption
  doctorOptions : List FilterOption
  medicineOptions : List FilterOption
  error : Option String
  loading : Bool
deriving DecidableEq

/-- JS `Map.set`: replace the value at an existing key in place, else
append the binding. -/
def upsert (m : List (String × FilterOption)) (k : String)
    (v : FilterOption) : List (String × FilterOption) :=
  match m with
  | [] => [(k, v)]
  | (k', v') :: rest =>
    if k' = k then (k', v) :: rest else (k', v') :: upsert rest k v

/-- `fetchFilterOptions` of the report page (part_002 lines 222-313) as a
function of its query results. It calls `setLoading(true)` on entry; on
any failure the catch block sets the error string and empties the three
option lists, and the finally block is deliberately empty ("Leave
loading = true; let fetchReports clear it"), so `loading` is still true on
every path, the failure paths included. -/
def fetchFilterOptions (userRole mrId : String)
    (mrQ : Except String (List IdName))
    (doctorsQ medicinesQ : Except String (List IdName))
    (visitsQ : Except String (List FilterVisit)) : FilterOptionsResult :=
  match mrQ with
  | Except.error _ => ⟨[], [], [], some "Failed to fetch MR options", true⟩
  | Except.ok mrData =>
    let mrOptions := mrData.map (fun mr => FilterOption.mk mr.id mr.name)
    if userRole == "admin" && mrId == "all" then
      match doctorsQ with
      | Except.error _ => ⟨[], [], [], some "Failed to fetch doctors", true⟩
      | Except.ok doctors =>
        match medicinesQ with
        | Except.error _ => ⟨[], [], [], some "Failed to fetch medicines", true⟩
        | Except.ok medicines =>
          ⟨mrOptions,
           doctors.map (fun doc => FilterOption.mk doc.id doc.name),
           medicines.map (fun med => FilterOption.mk med.id med.name),
           none, true⟩
    else
      match visitsQ with
      | Except.error _ => ⟨[], [], [], some "Visit fetch failed", true⟩
      | Except.ok visits =>
        let doctorMap := visits.foldl (fun m visit =>
          match visit.doctors with
          | some doc =>
            if doc.id != "" && doc.name != "" then
              upsert m doc.id (FilterOption.mk doc.id doc.name)
            else m
          | none => m) []
        let medicineMap := visits.foldl (fun m visit =>
          visit.visit_orders.foldl (fun m' order =>
            match order with
            | some med =>
              if med.id != "" && med.name != "" then
                upsert m' med.id (FilterOption.mk med.id med.name)
              else m'
            | none => m') m) []
        ⟨mrOptions, doctorMap.map (fun p => p.2),
         medicineMap.map (fun p => p.2), none, true⟩

/-- State written by one run of `handleApprove` (part_001 lines 443-486):
it calls `setLoading(true)` on entry; on success it triggers a dashboard
refresh without resetting `loading`; the catch block sets the error and
calls `setLoading(false)`. Every branch of the `type` switch performs one
update query and throws on its error, so the run is a function of that
query result. -/
structure ApproveResult where
  loading : Bool
  error : Option String
deriving DecidableEq

/-- Flag behavior of `handleApprove` as a function of the result of its
update query. -/
def handleApprove (updateQ : Except String Unit) : ApproveResult :=
  match updateQ with
  | Except.ok _ => ⟨true, none⟩
  | Except.error m => ⟨false, some m⟩

/-! ## Theorems -/

/-- Concatenating the `⌈n/p⌉` successive `p`-sized chunks of a list
reassembles the list. -/
theorem chunks_flatten {α : Type u} (p : Nat) (hp : 0 < p) :
    ∀ (n : Nat) (l : List α), l.length ≤ n →
      ((List.range ((l.length + p - 1) / p)).map
        (fun i => (l.drop (i * p)).take p)).flatten = l := by
  intro n
  induction n with
  | zero =>
    intro l hl
    have hnil : l = [] := List.length_eq_zero.mp (Nat.le_zero.mp hl)
    subst hnil
    have h0 : (0 + p - 1) / p = 0 :=
      Nat.div_eq_of_lt (by omega)
    simp [h0]
  | succ n ih =>
    intro l hl
    cases l with
    | nil =>
      have h0 : (0 + p - 1) / p = 0 := Nat.div_eq_of_lt (by omega)
      simp [h0]
    | cons a t =>
      have hm : ((a :: t).length + p - 1) / p = ((a :: t).length - 1) / p + 1 := by
        have h1 : (a :: t).length + p - 1 = ((a :: t).length - 1) + p := by
          simp only [List.length_cons]; omega
        rw [h1, Nat.add_div_right _ hp]
      rw [hm, List.range_succ_eq_map]
      simp only [List.map_cons, List.map_map, List.flatten_cons]
      have hhead : ((a :: t).drop (0 * p)).take p = (a :: t).take p := by
        simp
      have htail :
          ((List.range (((a :: t).length - 1) / p)).map
            ((fun i => ((a :: t).drop (i * p)).take p) ∘ Nat.succ)).flatten
            = (a :: t).drop p := by
        have hlen : ((a :: t).drop p).length = (a :: t).length - p :=
          List.length_drop p (a :: t)
        have hcount : (((a :: t).drop p).length + p - 1) / p
            = ((a :: t).length - 1) / p := by
          rw [hlen]
          rcases Nat.le_total p (a :: t).length with h | h
          · have h2 : (a :: t).length - p + p - 1 = (a :: t).length - 1 := by omega
            rw [h2]
          · have h1 : (a :: t).length - p = 0 := by omega
            have h2 : (0 + p - 1) / p = 0 := Nat.div_eq_of_lt (by omega)
            have h3 : ((a :: t).length - 1) / p = 0 := by
              apply Nat.div_eq_of_lt
              simp only [List.length_cons] at h ⊢
              omega
            rw [h1, h2, h3]
        have hih := ih ((a :: t).drop p) (by
          rw [hlen]
          simp only [List.length_cons] at hl ⊢
          omega)
        rw [hcount] at hih
        rw [← hih]
        congr 1
        apply List.map_congr_left
        intro i _
        simp only [Function.comp_apply]
        rw [List.drop_drop]
        congr 2
        rw [Nat.succ_mul, Nat.add_comm]
      rw [hhead, htail, List.take_append_drop]

/-- Claim C1: a page slice has at most `itemsPerPage` records, and the
pages `1 .. ⌈n/p⌉` concatenate back to exactly the input array. -/
theorem c1_pagination_complete {α : Type u} (l : List α) (p k : Nat)
    (hp : p = 10 ∨ p = 30 ∨ p = 100) (hk : 1 ≤ k) :
    (paginatedData l k p).length ≤ p ∧
    ((List.range ((l.length + p - 1) / p)).map
      (fun i => paginatedData l (i + 1) p)).flatten = l := by
  have hp0 : 0 < p := by rcases hp with h | h | h <;> omega
  refine ⟨?_, ?_⟩
  · simp only [paginatedData, slice]
    have h1 : (k - 1) * p + p - (k - 1) * p = p := by omega
    rw [h1]
    exact List.length_take_le _ _
  · have hmain := chunks_flatten p hp0 l.length l (Nat.le_refl _)
    have h2 : ((List.range ((l.length + p - 1) / p)).map
        (fun i => paginatedData l (i + 1) p))
        = ((List.range ((l.length + p - 1) / p)).map
          (fun i => (l.drop (i * p)).take p)) := by
      apply List.map_congr_left
      intro i _
      simp only [paginatedData, slice]
      congr 1
      omega
    rw [h2, hmain]

/-- Witness for C1 at a concrete input. -/
theorem c1_pagination_complete_witness :
    (paginatedData [1, 2, 3, 4, 5, 6, 7, 8, 9, 10, 11] 2 10).length ≤ 10 ∧
    ((List.range (([1, 2, 3, 4, 5, 6, 7, 8, 9, 10, 11].length + 10 - 1) / 10)).map
      (fun i => paginatedData [1, 2, 3, 4, 5, 6, 7, 8, 9, 10, 11] (i + 1) 10)).flatten
      = [1, 2, 3, 4, 5, 6, 7, 8, 9, 10, 11] :=
  c1_pagination_complete [1, 2, 3, 4, 5, 6, 7, 8, 9, 10, 11] 10 2
    (Or.inl rfl) (by decide)

/-- Claim C2: applying the sortable-table utility twice with the same
column and direction returns the same array as applying it once. -/
theorem c2_sort_idempotent {K : Type u} (data : List (K → String)) (col : K)
    (d : SortDirection) :
    sortedData (sortedData data col d) col d = sortedData data col d :=
  List.Sorted.insertionSort_eq (List.sorted_insertionSort _ _)

/-- Claim C3 fails as stated: with the configured default of the report page
(column `date`, direction `desc`), invoking `handleSort` twice on that
same column
toggles `desc → asc → desc`, leaving the table sorted descending, not
ascending. -/
theorem c3_counterexample :
    (handleSort (handleSort (initState "date" SortDirection.desc) "date")
      "date").dir ≠ SortDirection.asc := by
  decide

/-- Claim C3 amended: invoking `handleSort` twice on the configured
default column restores the configured default state (hence ascending
exactly when the configured default direction is ascending, as in
`DoctorsList`), and invoking it twice on any other column leaves that
column sorted descending. -/
theorem c3_double_toggle {K : Type u} [DecidableEq K] (defCol : K)
    (defDir : SortDirection) (c : K) :
    (c = defCol →
      handleSort (handleSort (initState defCol defDir) c) c
        = initState defCol defDir) ∧
    (c ≠ defCol →
      handleSort (handleSort (initState defCol defDir) c) c
        = ⟨c, SortDirection.desc⟩) := by
  refine ⟨?_, ?_⟩
  · intro h
    subst h
    cases defDir <;> simp [handleSort, initState, toggle]
  · intro h
    simp [handleSort, initState, h, toggle]

/-- Witness for C3 amended at concrete inputs. -/
theorem c3_double_toggle_witness :
    handleSort (handleSort (initState (0 : Nat) SortDirection.asc) 0) 0
      = initState 0 SortDirection.asc ∧
    handleSort (handleSort (initState (0 : Nat) SortDirection.asc) 1) 1
      = ⟨1, SortDirection.desc⟩ :=
  ⟨(c3_double_toggle 0 SortDirection.asc 0).1 rfl,
   (c3_double_toggle 0 SortDirection.asc 1).2 (by decide)⟩

/-- Claim C4: the merged pending-approvals list has length equal to the
sum of the lengths of the four fetched source lists. -/
theorem c4_pending_approvals_length (fmtDate : String → String)
    (pendingVisitsData : List PendingVisitData)
    (pendingUsersData : List PendingUserRow)
    (pendingDoctorsData : List PendingDoctorRow)
    (pendingMedicalVisitsData : List PendingMedicalVisitRow)
    (mrMap : List (String × String)) :
    (fetchPendingApprovals fmtDate pendingVisitsData pendingUsersData
      pendingDoctorsData pendingMedicalVisitsData mrMap).length
      = pendingVisitsData.length + pendingUsersData.length
        + pendingDoctorsData.length + pendingMedicalVisitsData.length := by
  simp only [fetchPendingApprovals, List.length_append, List.length_map]

/-- Claim C5: the top-MR ranking is sorted in non-increasing order of
approved-visit count within the window, and its members are exactly the
performance entries of the profiles with a positive approved-visit count
in the window. -/
theorem c5_top_mrs_ranking (mrsData : List IdName) (allVisits : List VisitRow)
    (allOrders : List OrderRow) (startDate endDate : Option Int) :
    (fetchAndProcessMRPerformance mrsData allVisits allOrders startDate
      endDate).Pairwise byVisitsDesc ∧
    (∀ x : MRPerformance,
      x ∈ fetchAndProcessMRPerformance mrsData allVisits allOrders startDate endDate
        ↔ (∃ mr ∈ mrsData,
            mrPerformanceOf allVisits allOrders startDate endDate mr = x)
          ∧ 0 < x.visits) := by
  refine ⟨?_, ?_⟩
  · exact List.Pairwise.sublist (List.filter_sublist _)
      (List.sorted_insertionSort byVisitsDesc _)
  · intro x
    simp only [fetchAndProcessMRPerformance]
    rw [List.mem_filter, List.mem_insertionSort, List.mem_map]
    simp only [decide_eq_true_eq]

/-- Each bucket update preserves the orders-equals-visits invariant. -/
theorem addVisitMonth_orders (m : List TrendItem) (k : MonthKey)
    (h : ∀ e ∈ m, e.orders = e.visits) :
    ∀ e ∈ addVisitMonth m k, e.orders = e.visits := by
  induction m with
  | nil =>
    intro e he
    simp only [addVisitMonth, List.mem_singleton] at he
    subst he
    rfl
  | cons a rest ih =>
    intro e he
    simp only [addVisitMonth] at he
    by_cases hc : a.month = k
    · rw [if_pos hc] at he
      rcases List.mem_cons.mp he with h1 | h1
      · subst h1
        have := h a (List.mem_cons_self a rest)
        simp [this]
      · exact h e (List.mem_cons_of_mem _ h1)
    · rw [if_neg hc] at he
      rcases List.mem_cons.mp he with h1 | h1
      · subst h1
        exact h e (List.mem_cons_self e rest)
      · exact ih (fun e' he' => h e' (List.mem_cons_of_mem _ he')) e h1

/-- Unfolding `visitsAt` over a cons cell. -/
theorem visitsAt_cons (k' : MonthKey) (e : TrendItem) (l : List TrendItem) :
    visitsAt k' (e :: l)
      = (if e.month == k' then e.visits else 0) + visitsAt k' l := by
  simp only [visitsAt, List.filter_cons]
  by_cases h : (e.month == k') = true
  · simp [h]
  · simp [h]

/-- A bucket update adds one visit to the bucket of the given key and
leaves the total of every other key unchanged. -/
theorem visitsAt_addVisitMonth (m : List TrendItem) (k k' : MonthKey) :
    visitsAt k' (addVisitMonth m k)
      = visitsAt k' m + (if k' = k then 1 else 0) := by
  induction m with
  | nil =>
    by_cases h : k' = k
    · subst h
      simp [addVisitMonth, visitsAt]
    · have hne : (k == k') = false := by
        simp only [beq_eq_false_iff_ne, ne_eq]
        exact fun hk => h hk.symm
      simp [addVisitMonth, visitsAt, hne, h]
  | cons a rest ih =>
    simp only [addVisitMonth]
    by_cases hak : a.month = k
    · rw [if_pos hak, visitsAt_cons, visitsAt_cons]
      by_cases hk' : k' = k
      · subst hk'
        have hbeq : (a.month == k') = true := by simp [hak]
        simp only [hbeq, if_true, if_pos rfl]
        omega
      · have hbeq : (a.month == k') = false := by
          rw [hak]
          simp only [beq_eq_false_iff_ne, ne_eq]
          exact fun hk => hk' hk.symm
        simp [hbeq, hk']
    · rw [if_neg hak, visitsAt_cons, visitsAt_cons, ih]
      omega

/-- A bucket update's key set is the old key set plus the given key. -/
theorem keys_addVisitMonth (m : List TrendItem) (k k' : MonthKey) :
    k' ∈ (addVisitMonth m k).map (fun e => e.month)
      ↔ k' ∈ m.map (fun e => e.month) ∨ k' = k := by
  induction m with
  | nil =>
    simp [addVisitMonth]
  | cons a rest ih =>
    simp only [addVisitMonth]
    by_cases hak : a.month = k
    · rw [if_pos hak]
      simp only [List.map_cons, List.mem_cons]
      constructor
      · rintro (h | h)
        · exact Or.inl (Or.inl h)
        · exact Or.inl (Or.inr h)
      · rintro ((h | h) | h)
        · exact Or.inl h
        · exact Or.inr h
        · exact Or.inl (hak ▸ h)
    · rw [if_neg hak]
      simp only [List.map_cons, List.mem_cons, ih]
      tauto

/-- A bucket update keeps the keys distinct. -/
theorem nodup_keys_addVisitMonth (m : List TrendItem) (k : MonthKey)
    (h : (m.map (fun e => e.month)).Nodup) :
    ((addVisitMonth m k).map (fun e => e.month)).Nodup := by
  induction m with
  | nil =>
    simp [addVisitMonth]
  | cons a rest ih =>
    simp only [addVisitMonth]
    by_cases hak : a.month = k
    · rw [if_pos hak]
      simpa using h
    · rw [if_neg hak]
      simp only [List.map_cons, List.nodup_cons] at h ⊢
      refine ⟨?_, ih h.2⟩
      rw [keys_addVisitMonth]
      rintro (hmem | heq)
      · exact h.1 hmem
      · exact hak heq

/-- Fold version of `visitsAt_addVisitMonth`: the bucketing loop adds the
number of visits of each key to the total the accumulator holds for that
key. -/
theorem visitsAt_foldl (vs : List VDate) :
    ∀ (m : List TrendItem) (k : MonthKey),
      visitsAt k (vs.foldl (fun acc v => addVisitMonth acc (monthKey v)) m)
        = visitsAt k m + (vs.filter (fun v => monthKey v == k)).length := by
  induction vs with
  | nil =>
    intro m k
    simp
  | cons v rest ih =>
    intro m k
    simp only [List.foldl_cons, List.filter_cons]
    rw [ih (addVisitMonth m (monthKey v)) k, visitsAt_addVisitMonth]
    by_cases h : monthKey v = k
    · have hbeq : (monthKey v == k) = true := by simp [h]
      rw [if_pos h.symm, if_pos hbeq, List.length_cons]
      omega
    · have hbeq : (monthKey v == k) = false := by simp [h]
      rw [if_neg (fun hk => h hk.symm), if_neg (by simp [hbeq])]
      omega

/-- Fold version of `keys_addVisitMonth`. -/
theorem keys_foldl (vs : List VDate) :
    ∀ (m : List TrendItem) (k : MonthKey),
      k ∈ (vs.foldl (fun acc v => addVisitMonth acc (monthKey v)) m).map
          (fun e => e.month)
        ↔ k ∈ m.map (fun e => e.month) ∨ ∃ v ∈ vs, monthKey v = k := by
  induction vs with
  | nil =>
    intro m k
    simp
  | cons v rest ih =>
    intro m k
    simp only [List.foldl_cons, ih, keys_addVisitMonth, List.mem_cons]
    constructor
    · rintro ((h | h) | h)
      · exact Or.inl h
      · exact Or.inr ⟨v, Or.inl rfl, h.symm⟩
      · rcases h with ⟨w, hw, hwk⟩
        exact Or.inr ⟨w, Or.inr hw, hwk⟩
    · rintro (h | ⟨w, hw | hw, hwk⟩)
      · exact Or.inl (Or.inl h)
      · subst hw
        exact Or.inl (Or.inr hwk.symm)
      · exact Or.inr ⟨w, hw, hwk⟩

/-- Fold version of `nodup_keys_addVisitMonth`. -/
theorem nodup_keys_foldl (vs : List VDate) :
    ∀ (m : List TrendItem),
      (m.map (fun e => e.month)).Nodup →
      ((vs.foldl (fun acc v => addVisitMonth acc (monthKey v)) m).map
        (fun e => e.month)).Nodup := by
  induction vs with
  | nil =>
    intro m hm
    simpa using hm
  | cons v rest ih =>
    intro m hm
    simp only [List.foldl_cons]
    exact ih _ (nodup_keys_addVisitMonth m (monthKey v) hm)

/-- Fold version of `addVisitMonth_orders`. -/
theorem orders_foldl (vs : List VDate) :
    ∀ (m : List TrendItem),
      (∀ e ∈ m, e.orders = e.visits) →
      ∀ e ∈ vs.foldl (fun acc v => addVisitMonth acc (monthKey v)) m,
        e.orders = e.visits := by
  induction vs with
  | nil =>
    intro m hm
    simpa using hm
  | cons v rest ih =>
    intro m hm
    simp only [List.foldl_cons]
    exact ih _ (addVisitMonth_orders m (monthKey v) hm)

/-- Claim C6: the visit-trend series has pairwise-distinct month buckets,
a bucket for exactly the calendar months of the fetched visits, bucket
totals equal to the number of fetched visits in that month, and is sorted
in ascending chronological order. -/
theorem c6_visit_trend (visits : List VDate) :
    ((visitTrendArray visits).map (fun e => e.month)).Nodup ∧
    (∀ k : MonthKey,
      k ∈ (visitTrendArray visits).map (fun e => e.month)
        ↔ ∃ v ∈ visits, monthKey v = k) ∧
    (∀ k : MonthKey,
      visitsAt k (visitTrendArray visits)
        = (visits.filter (fun v => monthKey v == k)).length) ∧
    (visitTrendArray visits).Pairwise byMonthAsc := by
  have hperm : List.Perm (visitTrendArray visits) (monthlyData visits) :=
    List.perm_insertionSort byMonthAsc (monthlyData visits)
  refine ⟨?_, ?_, ?_, ?_⟩
  · have h1 := nodup_keys_foldl visits [] (by simp)
    exact ((hperm.map (fun e => e.month)).nodup_iff).mpr h1
  · intro k
    rw [(hperm.map (fun e => e.month)).mem_iff]
    have h1 := keys_foldl visits [] k
    simpa [monthlyData] using h1
  · intro k
    have hsum : visitsAt k (visitTrendArray visits)
        = visitsAt k (monthlyData visits) := by
      unfold visitsAt
      exact ((hperm.filter (fun e => e.month == k)).map
        (fun e => e.visits)).sum_eq
    rw [hsum]
    have h1 := visitsAt_foldl visits [] k
    simpa [monthlyData, visitsAt] using h1
  · exact List.sorted_insertionSort byMonthAsc (monthlyData visits)

/-- Claim C10: in every bucket of the visit-trend series the orders count
equals the visits count — each fetched visit row is counted once in each. -/
theorem c10_orders_equal_visits (visits : List VDate) :
    (visitTrendArray visits).all (fun e => e.orders == e.visits) = true := by
  rw [List.all_eq_true]
  intro e he
  have hmem : e ∈ monthlyData visits :=
    (List.mem_insertionSort byMonthAsc).mp he
  have h1 := orders_foldl visits [] (by simp) e hmem
  simp [h1]

/-- The empty pattern occurs in every string. -/
theorem occursIn_nil (l : List Char) : occursIn [] l = true := by
  cases l <;> simp [occursIn, leadsWith, List.isEmpty]

/-- Claim C7 fails as stated: the single-space search term consists only
of whitespace, yet it selects exactly the doctors with a space somewhere
in a searched field — a proper non-empty subset of this two-doctor list. -/
theorem c7_counterexample :
    (" " : String).data.all Char.isWhitespace = true ∧
    filteredDoctors
      [⟨"Jo hn", "c", "h", "a"⟩, ⟨"Bob", "d", "k", "l"⟩] " "
      = [⟨"Jo hn", "c", "h", "a"⟩] ∧
    ¬ (filteredDoctors
        [⟨"Jo hn", "c", "h", "a"⟩, ⟨"Bob", "d", "k", "l"⟩] " "
        = [⟨"Jo hn", "c", "h", "a"⟩, ⟨"Bob", "d", "k", "l"⟩] ∨
      filteredDoctors
        [⟨"Jo hn", "c", "h", "a"⟩, ⟨"Bob", "d", "k", "l"⟩] " "
        = []) := by
  refine ⟨by decide, by decide, ?_⟩
  rintro (h | h) <;> exact absurd h (by decide)

/-- Claim C7 amended: for the empty search term the filter returns the
full unfiltered list; a nonempty whitespace-only term selects exactly the
doctors with that whitespace sequence in a searched field, which can be a
proper non-empty subset (see the counterexample). -/
theorem c7_empty_search (doctors : List Doctor) :
    filteredDoctors doctors "" = doctors := by
  have hdata : (jsToLower "").data = [] := by decide
  have hmatch : ∀ d, matchesSearch "" d = true := by
    intro d
    simp [matchesSearch, jsIncludes, hdata, occursIn_nil]
  unfold filteredDoctors
  exact List.filter_eq_self.mpr (fun a _ => hmatch a)

/-- Claim C8 fails as stated: when the four count queries succeed and the
visit-trend query errors, the error string is set but `setStats` has
already run, so the stats state is updated with the fetched counts. -/
theorem c8_counterexample :
    (fetchCoreDashboardData (Except.ok (some 1)) (Except.ok (some 2))
      (Except.ok (some 3)) (Except.ok (some 4))
      (Except.error "boom")).error.isSome = true ∧
    (fetchCoreDashboardData (Except.ok (some 1)) (Except.ok (some 2))
      (Except.ok (some 3)) (Except.ok (some 4))
      (Except.error "boom")).stats
      = some ⟨1, 0, 2, 0, 3, 0, 4, 0⟩ := by
  exact ⟨rfl, rfl⟩

/-- Claim C8 amended: a failing count query sets the error string and
leaves both the stats and the visit-trend states untouched; a failing
visit-trend query sets the error string and leaves the visit-trend state
untouched, but the stats state has already been updated with the fetched
counts. `coreLoading` is cleared on every path. -/
theorem c8_error_isolation
    (mrsQ doctorsQ visitsQ medicalsQ : Except String (Option Nat))
    (trendQ : Except String (List VDate)) :
    ((isErr mrsQ || isErr doctorsQ || isErr visitsQ || isErr medicalsQ) = true →
      (fetchCoreDashboardData mrsQ doctorsQ visitsQ medicalsQ trendQ).stats = none ∧
      (fetchCoreDashboardData mrsQ doctorsQ visitsQ medicalsQ trendQ).visitTrend = none ∧
      (fetchCoreDashboardData mrsQ doctorsQ visitsQ medicalsQ trendQ).error.isSome = true) ∧
    (∀ a b c d : Option Nat,
      mrsQ = Except.ok a → doctorsQ = Except.ok b → visitsQ = Except.ok c →
      medicalsQ = Except.ok d → isErr trendQ = true →
      (fetchCoreDashboardData mrsQ doctorsQ visitsQ medicalsQ trendQ).stats
        = some ⟨a.getD 0, 0, b.getD 0, 0, c.getD 0, 0, d.getD 0, 0⟩ ∧
      (fetchCoreDashboardData mrsQ doctorsQ visitsQ medicalsQ trendQ).visitTrend = none ∧
      (fetchCoreDashboardData mrsQ doctorsQ visitsQ medicalsQ trendQ).error.isSome = true) ∧
    (fetchCoreDashboardData mrsQ doctorsQ visitsQ medicalsQ trendQ).coreLoading = false := by
  cases mrsQ <;> cases doctorsQ <;> cases visitsQ <;> cases medicalsQ <;>
    cases trendQ <;> simp [fetchCoreDashboardData, isErr] <;>
    (intro a b c d ha hb hc hd
     subst ha
     subst hb
     subst hc
     subst hd
     exact ⟨rfl, rfl, rfl, rfl⟩)

/-- Witness for C8 amended: a failing count query and a failing trend
query, each at concrete inputs. -/
theorem c8_error_isolation_witness :
    ((fetchCoreDashboardData (Except.error "x") (Except.ok none)
        (Except.ok none) (Except.ok none) (Except.ok [])).stats = none ∧
      (fetchCoreDashboardData (Except.error "x") (Except.ok none)
        (Except.ok none) (Except.ok none) (Except.ok [])).visitTrend = none ∧
      (fetchCoreDashboardData (Except.error "x") (Except.ok none)
        (Except.ok none) (Except.ok none) (Except.ok [])).error.isSome = true) ∧
    ((fetchCoreDashboardData (Except.ok (some 5)) (Except.ok (some 6))
        (Except.ok (some 7)) (Except.ok (some 8)) (Except.error "y")).stats
        = some ⟨5, 0, 6, 0, 7, 0, 8, 0⟩ ∧
      (fetchCoreDashboardData (Except.ok (some 5)) (Except.ok (some 6))
        (Except.ok (some 7)) (Except.ok (some 8)) (Except.error "y")).visitTrend = none ∧
      (fetchCoreDashboardData (Except.ok (some 5)) (Except.ok (some 6))
        (Except.ok (some 7)) (Except.ok (some 8)) (Except.error "y")).error.isSome = true) :=
  ⟨(c8_error_isolation (Except.error "x") (Except.ok none) (Except.ok none)
      (Except.ok none) (Except.ok [])).1 (by decide),
   (c8_error_isolation (Except.ok (some 5)) (Except.ok (some 6))
      (Except.ok (some 7)) (Except.ok (some 8)) (Except.error "y")).2.1
      (some 5) (some 6) (some 7) (some 8) rfl rfl rfl rfl (by decide)⟩

/-- Claim C9 fails as stated: a failing `fetchFilterOptions` run sets the
error string yet leaves the `loading` flag it set to true still true when
it completes (the deliberately empty finally block). -/
theorem c9_counterexample :
    (fetchFilterOptions "admin" "all" (Except.error "x") (Except.ok [])
      (Except.ok []) (Except.ok [])).error.isSome = true ∧
    (fetchFilterOptions "admin" "all" (Except.error "x") (Except.ok [])
      (Except.ok []) (Except.ok [])).loading ≠ false := by
  exact ⟨rfl, by decide⟩

/-- Claim C9 amended: `fetchCoreDashboardData` clears its `coreLoading`
flag on every path and `handleApprove` clears the shared `loading` flag on
its failure path, but `fetchFilterOptions` leaves `loading` true on every
path, failures included — by design, the subsequent `fetchReports` call
clears it. -/
theorem c9_loading_flags
    (mrsQ doctorsQ visitsQ medicalsQ : Except String (Option Nat))
    (trendQ : Except String (List VDate))
    (updateQ : Except String Unit)
    (userRole mrId : String)
    (mrQ : Except String (List IdName))
    (docQ medQ : Except String (List IdName))
    (fvQ : Except String (List FilterVisit)) :
    (fetchCoreDashboardData mrsQ doctorsQ visitsQ medicalsQ trendQ).coreLoading = false ∧
    (isErr updateQ = true → (handleApprove updateQ).loading = false) ∧
    (fetchFilterOptions userRole mrId mrQ docQ medQ fvQ).loading = true := by
  refine ⟨?_, ?_, ?_⟩
  · cases mrsQ <;> cases doctorsQ <;> cases visitsQ <;> cases medicalsQ <;>
      cases trendQ <;> rfl
  · cases updateQ <;> simp [handleApprove, isErr]
  · cases mrQ with
    | error e => rfl
    | ok l =>
      simp only [fetchFilterOptions]
      split
      · cases docQ with
        | error e => rfl
        | ok dl => cases medQ <;> rfl
      · cases fvQ <;> rfl

/-- Witness for C9 amended at concrete inputs. -/
theorem c9_loading_flags_witness :
    (fetchCoreDashboardData (Except.ok none) (Except.ok none) (Except.ok none)
      (Except.ok none) (Except.ok [])).coreLoading = false ∧
    (handleApprove (Except.error "e")).loading = false ∧
    (fetchFilterOptions "mr" "all" (Except.ok []) (Except.ok [])
      (Except.ok []) (Except.ok [])).loading = true := by
  have h := c9_loading_flags (Except.ok none) (Except.ok none) (Except.ok none)
    (Except.ok none) (Except.ok []) (Except.error "e") "mr" "all"
    (Except.ok []) (Except.ok []) (Except.ok []) (Except.ok [])
  exact ⟨h.1, h.2.1 (by decide), h.2.2⟩

end MrTracking
